import Mathlib

/-!
Verification of `defaultFetchVariablesStrategy`
(src/packages/webview-ui/src/features/sessions/debugSessions/default/strategies/
defaultFetchVariablesStrategy.ts).

The strategy is an async recursive fetcher over debug-adapter variable
references.  We embed it shallowly: the protocol collaborator
(`debugApi.debugRequestAsync`) becomes an oracle `Env : Int → Option (List
DPVariable)` (`none` = the request rejects, which in the source propagates as
an exception), the Redux session store becomes an explicit `SessionState`
threaded through the recursion, and the observable side effects (protocol
requests issued, `addVariables` dispatches) are recorded in an event trace.
The source terminates because recursion is guarded by
`currentDepth >= maxDepth` and recursive calls pass `currentDepth + 1`; a
frame's behaviour depends on the two depth arguments only through the
remaining budget `maxDepth - currentDepth`, which we use as the structural
recursion argument (`gas`).
-/

namespace PedagogReactVite

/-- `DP.Variable.presentationHint` restricted to the one field the strategy
reads (`lazy`). Both the hint object and the flag are optional in the
protocol, matching `$var.presentationHint?.lazy`. -/
structure DPVariablePresentationHint where
  lazy : Option Bool
deriving DecidableEq

/-- A child variable descriptor from a DAP "variables" response
(`DebugProtocol.Variable`), restricted to the fields the strategy reads. -/
structure DPVariable where
  name : String
  value : String
  variablesReference : Int
  presentationHint : Option DPVariablePresentationHint
deriving DecidableEq

/-- JavaScript truthiness of `$var.presentationHint?.lazy`: true exactly when
the hint object is present and its `lazy` flag is `true`. -/
def lazyTruthy (v : DPVariable) : Bool :=
  (v.presentationHint.bind (fun h => h.lazy)).getD false

/-- Modelled from the spec: `StackFrameEntity` (declared in `entities.ts`,
which is not under src/) is opaque to the fetcher — caller bookkeeping only. -/
structure StackFrameEntity where
  id : String
deriving DecidableEq

/-- Modelled from the spec: `ScopeEntity` (declared in `entities.ts`, not
under src/) is opaque to the fetcher — caller bookkeeping only. -/
structure ScopeEntity where
  name : String
deriving DecidableEq

/-- Modelled from the spec: a `VariablesEntity` (declared in `entities.ts`,
not under src/) records the originating request arguments (the handle), the
entity id, and the child descriptors from the response. -/
structure VariablesEntity where
  id : String
  variablesReference : Int
  variables' : List DPVariable
deriving DecidableEq

/-- Modelled from the spec: `toVariablesEntity(args, resp.body.variables)`
(in `entities.ts`, not under src/). Per the source comment "by default the
variable id is it's variablesReference number", the id is the handle. -/
def toVariablesEntity (ref : Int) (children : List DPVariable) : VariablesEntity :=
  { id := toString ref, variablesReference := ref, variables' := children }

/-- Modelled from the spec: the per-session variable store
(`session.variables`, an entity collection), holding the fetched entities in
insertion order. -/
structure SessionState where
  entities : List VariablesEntity
deriving DecidableEq

/-- Modelled from the spec: `session.variables.ids` — the entity ids present
in the store, in order. -/
def stateIds (s : SessionState) : List String :=
  s.entities.map (fun e => e.id)

/-- Modelled from the spec: `variableSelectors.selectReferences(session.variables)`
("getFetchedReferences") — the reference handles of the entities already
fetched into the session store. -/
def selectReferences (s : SessionState) : List Int :=
  s.entities.map (fun e => e.variablesReference)

/-- Modelled from the spec: the reducer behind the `addVariables` action
(`defaultActions.ts`, not under src/) — an idempotent append: entities whose
id is already present are not duplicated. -/
def addVariables (s : SessionState) (vs : List VariablesEntity) : SessionState :=
  { entities := s.entities ++ vs.filter (fun v => !((stateIds s).contains v.id)) }

/-- The protocol oracle standing for `debugApi.debugRequestAsync` with the
"variables" command: for a handle, either the response body's `variables`
array, or `none` when the request rejects (the exception case). -/
def Env : Type := Int → Option (List DPVariable)

/-- Embedding of `FetchVariablesContextArg` (lines 8-21 of the source).
`variable'`/`scope` model the optional `variable`/`scope` fields; `force`
models the optional boolean under JavaScript truthiness (absent = false). -/
structure FetchVariablesContextArg where
  sessionId : String
  frame : StackFrameEntity
  refsToFetch : List Int
  variable' : Option VariablesEntity
  scope : Option ScopeEntity
  force : Bool
deriving DecidableEq

/-- An observable side effect of the strategy: a protocol request for a
handle, or an `addVariables` dispatch of a freshly built entity. -/
inductive Event where
  | request : Int → Event
  | publish : VariablesEntity → Event
deriving DecidableEq

/-- Outcome of a (sub)call: `result = none` models the promise rejecting
(the thrown protocol error propagating), in which case the returned variable
list is lost but the store mutations and issued requests remain. -/
structure FetchResult where
  result : Option (List VariablesEntity)
  state : SessionState
  trace : List Event
deriving DecidableEq

/-- The child filter of lines 80-84: the descriptor's handle is strictly
positive, not already in the (locally updated) `refsFetched` array, not lazy
unless the request is forced, and its value string is not an id already in
the session snapshot. -/
def childEligible (force : Bool) (refsFetched : List Int) (sessionIds : List String)
    (v : DPVariable) : Bool :=
  decide (0 < v.variablesReference)
    && !(refsFetched.contains v.variablesReference)
    && (force || !(lazyTruthy v))
    && !(sessionIds.contains v.value)

/-- `childRefsToFetch` (lines 80-85): the handles of the eligible child
descriptors, in order. -/
def childRefsToFetch (force : Bool) (refsFetched : List Int) (sessionIds : List String)
    (e : VariablesEntity) : List Int :=
  (e.variables'.filter (childEligible force refsFetched sessionIds)).map
    (fun v => v.variablesReference)

/-- `childContextArgs` (lines 87-91): the spread `{ ...ctx, refsToFetch:
childRefsToFetch, variable: varEntity }`. -/
def childContextArgs (ctx : FetchVariablesContextArg) (childRefs : List Int)
    (varEntity : VariablesEntity) : FetchVariablesContextArg :=
  { ctx with refsToFetch := childRefs, variable' := some varEntity }

/-- The `for (const ref of ctx.refsToFetch)` loop (lines 49-95) of one call
frame. `sessionIds` and the initial `refsFetched` are the frame-entry
snapshots (lines 46-47); `refsFetched` is the frame-local array that line 61
pushes into; `recurse` is the recursive call of line 92, absent when the
depth cutoff of lines 71-73 is active for this frame. The source pushes
results into a `variables` array and appends child results (lines 68, 94);
we build the same list by prepending, which yields the identical final
list. -/
def fetchIter (env : Env) (ctx : FetchVariablesContextArg) (sessionIds : List String)
    (recurse : Option (FetchVariablesContextArg → SessionState → FetchResult)) :
    List Int → List Int → SessionState → FetchResult
  | [], _, st => ⟨some [], st, []⟩
  | ref :: rest, refsFetched, st =>
    if ref = 0 then
      -- line 51: skip if ref is zero (not actually a ref)
      fetchIter env ctx sessionIds recurse rest refsFetched st
    else
      match env ref with
      | none =>
        -- the request of line 56 rejected: the exception unwinds the frame
        ⟨none, st, [Event.request ref]⟩
      | some children =>
        let refsFetched2 := refsFetched ++ [ref]          -- line 61
        let varEntity := toVariablesEntity ref children   -- line 65
        let st2 := addVariables st [varEntity]            -- line 67 dispatch
        match recurse with
        | none =>
          -- lines 71-73: depth cutoff, continue with the next handle
          let r := fetchIter env ctx sessionIds recurse rest refsFetched2 st2
          ⟨r.result.map (fun l => varEntity :: l), r.state,
            Event.request ref :: Event.publish varEntity :: r.trace⟩
        | some rec2 =>
          let childRefs := childRefsToFetch ctx.force refsFetched2 sessionIds varEntity
          let cr := rec2 (childContextArgs ctx childRefs varEntity) st2  -- line 92
          match cr.result with
          | none =>
            -- the recursive call rejected: propagate, keeping its effects
            ⟨none, cr.state, Event.request ref :: Event.publish varEntity :: cr.trace⟩
          | some childVars =>
            let r := fetchIter env ctx sessionIds recurse rest refsFetched2 cr.state
            ⟨r.result.map (fun l => varEntity :: (childVars ++ l)), r.state,
              Event.request ref :: Event.publish varEntity :: (cr.trace ++ r.trace)⟩

/-- One call frame of `defaultFetchVariablesStrategy`, indexed by the
remaining depth budget `gas = maxDepth - currentDepth`: the frame snapshots
the session state (lines 46-47) and runs the loop; `gas = 0` is exactly
`currentDepth >= maxDepth` (lines 71-73), and the recursive call of line 92
(`currentDepth + 1`) has budget `gas - 1`. -/
def fetchVarsGo (env : Env) : Nat → FetchVariablesContextArg → SessionState → FetchResult
  | 0, ctx, st =>
    fetchIter env ctx (stateIds st) none ctx.refsToFetch (selectReferences st) st
  | gas + 1, ctx, st =>
    fetchIter env ctx (stateIds st) (some (fun c s => fetchVarsGo env gas c s))
      ctx.refsToFetch (selectReferences st) st

/-- Embedding of `defaultFetchVariablesStrategy(ctx, api, maxDepth,
currentDepth)` (lines 37-98). Depths are naturals (the source only ever
passes 0 and increments); the frame's behaviour depends on them only through
`maxDepth - currentDepth`, the remaining budget. -/
def defaultFetchVariablesStrategy (env : Env) (ctx : FetchVariablesContextArg)
    (st : SessionState) (maxDepth : Nat) (currentDepth : Nat) : FetchResult :=
  fetchVarsGo env (maxDepth - currentDepth) ctx st

/-! ### Unfolding equations for the loop -/

theorem fetchIter_nil (env : Env) (ctx : FetchVariablesContextArg)
    (sessionIds : List String)
    (recurse : Option (FetchVariablesContextArg → SessionState → FetchResult))
    (refsFetched : List Int) (st : SessionState) :
    fetchIter env ctx sessionIds recurse [] refsFetched st = ⟨some [], st, []⟩ := by
  simp [fetchIter]

theorem fetchIter_cons_skip (env : Env) (ctx : FetchVariablesContextArg)
    (sessionIds : List String)
    (recurse : Option (FetchVariablesContextArg → SessionState → FetchResult))
    (ref : Int) (rest refsFetched : List Int) (st : SessionState)
    (h0 : ref = 0) :
    fetchIter env ctx sessionIds recurse (ref :: rest) refsFetched st =
      fetchIter env ctx sessionIds recurse rest refsFetched st := by
  simp [fetchIter, h0]

theorem fetchIter_cons_fail (env : Env) (ctx : FetchVariablesContextArg)
    (sessionIds : List String)
    (recurse : Option (FetchVariablesContextArg → SessionState → FetchResult))
    (ref : Int) (rest refsFetched : List Int) (st : SessionState)
    (h0 : ref ≠ 0) (henv : env ref = none) :
    fetchIter env ctx sessionIds recurse (ref :: rest) refsFetched st =
      ⟨none, st, [Event.request ref]⟩ := by
  simp [fetchIter, h0, henv]

theorem fetchIter_cons_cutoff (env : Env) (ctx : FetchVariablesContextArg)
    (sessionIds : List String)
    (ref : Int) (rest refsFetched : List Int) (st : SessionState)
    (children : List DPVariable)
    (h0 : ref ≠ 0) (henv : env ref = some children) :
    fetchIter env ctx sessionIds none (ref :: rest) refsFetched st =
      { result := (fetchIter env ctx sessionIds none rest (refsFetched ++ [ref])
            (addVariables st [toVariablesEntity ref children])).result.map
          (fun l => toVariablesEntity ref children :: l),
        state := (fetchIter env ctx sessionIds none rest (refsFetched ++ [ref])
            (addVariables st [toVariablesEntity ref children])).state,
        trace := Event.request ref :: Event.publish (toVariablesEntity ref children) ::
          (fetchIter env ctx sessionIds none rest (refsFetched ++ [ref])
            (addVariables st [toVariablesEntity ref children])).trace } := by
  simp [fetchIter, h0, henv]

theorem fetchIter_cons_rec (env : Env) (ctx : FetchVariablesContextArg)
    (sessionIds : List String)
    (f : FetchVariablesContextArg → SessionState → FetchResult)
    (ref : Int) (rest refsFetched : List Int) (st : SessionState)
    (children : List DPVariable)
    (h0 : ref ≠ 0) (henv : env ref = some children) :
    fetchIter env ctx sessionIds (some f) (ref :: rest) refsFetched st =
      (match (f (childContextArgs ctx
          (childRefsToFetch ctx.force (refsFetched ++ [ref]) sessionIds
            (toVariablesEntity ref children))
          (toVariablesEntity ref children))
          (addVariables st [toVariablesEntity ref children])) with
        | ⟨none, crState, crTrace⟩ =>
          ⟨none, crState, Event.request ref ::
            Event.publish (toVariablesEntity ref children) :: crTrace⟩
        | ⟨some childVars, crState, crTrace⟩ =>
          { result := (fetchIter env ctx sessionIds (some f) rest (refsFetched ++ [ref])
                crState).result.map
              (fun l => toVariablesEntity ref children :: (childVars ++ l)),
            state := (fetchIter env ctx sessionIds (some f) rest (refsFetched ++ [ref])
                crState).state,
            trace := Event.request ref :: Event.publish (toVariablesEntity ref children) ::
              (crTrace ++ (fetchIter env ctx sessionIds (some f) rest (refsFetched ++ [ref])
                crState).trace) }) := by
  simp only [fetchIter, if_neg h0, henv]
  rcases hcr : (f (childContextArgs ctx
      (childRefsToFetch ctx.force (refsFetched ++ [ref]) sessionIds
        (toVariablesEntity ref children))
      (toVariablesEntity ref children))
      (addVariables st [toVariablesEntity ref children])) with ⟨res, crState, crTrace⟩
  cases res <;> simp [hcr]

/-! ### Unfolding equations for the frame entry -/

theorem fetchVarsGo_zero (env : Env) (ctx : FetchVariablesContextArg) (st : SessionState) :
    fetchVarsGo env 0 ctx st =
      fetchIter env ctx (stateIds st) none ctx.refsToFetch (selectReferences st) st := rfl

theorem fetchVarsGo_succ (env : Env) (gas : Nat) (ctx : FetchVariablesContextArg)
    (st : SessionState) :
    fetchVarsGo env (gas + 1) ctx st =
      fetchIter env ctx (stateIds st) (some (fun c s => fetchVarsGo env gas c s))
        ctx.refsToFetch (selectReferences st) st := rfl

/-! ### Store evolution: the store only grows, and everything added comes from
a successful non-zero request -/

theorem addVariables_mem_of_mem (s : SessionState) (vs : List VariablesEntity)
    (e : VariablesEntity) (he : e ∈ s.entities) : e ∈ (addVariables s vs).entities := by
  simp [addVariables]
  exact Or.inl he

theorem addVariables_mem_cases (s : SessionState) (vs : List VariablesEntity)
    (e : VariablesEntity) (he : e ∈ (addVariables s vs).entities) :
    e ∈ s.entities ∨ e ∈ vs := by
  simp [addVariables] at he
  rcases he with h | h
  · exact Or.inl h
  · exact Or.inr h.1

theorem fetchIter_state_closure (env : Env) (ctx : FetchVariablesContextArg)
    (sessionIds : List String)
    (recurse : Option (FetchVariablesContextArg → SessionState → FetchResult))
    (hrec : ∀ f, recurse = some f → ∀ c s,
      (∀ e, e ∈ s.entities → e ∈ (f c s).state.entities) ∧
      (∀ e, e ∈ (f c s).state.entities → e ∈ s.entities ∨
        ∃ r cs, r ≠ 0 ∧ env r = some cs ∧ e = toVariablesEntity r cs)) :
    ∀ (refs refsFetched : List Int) (st : SessionState),
      (∀ e, e ∈ st.entities →
        e ∈ (fetchIter env ctx sessionIds recurse refs refsFetched st).state.entities) ∧
      (∀ e, e ∈ (fetchIter env ctx sessionIds recurse refs refsFetched st).state.entities →
        e ∈ st.entities ∨ ∃ r cs, r ≠ 0 ∧ env r = some cs ∧ e = toVariablesEntity r cs) := by
  intro refs
  induction refs with
  | nil =>
    intro rf st
    rw [fetchIter_nil]
    exact ⟨fun e he => he, fun e he => Or.inl he⟩
  | cons ref rest ih =>
    intro rf st
    by_cases h0 : ref = 0
    · rw [fetchIter_cons_skip env ctx sessionIds recurse ref rest rf st h0]
      exact ih rf st
    · cases henv : env ref with
      | none =>
        rw [fetchIter_cons_fail env ctx sessionIds recurse ref rest rf st h0 henv]
        exact ⟨fun e he => he, fun e he => Or.inl he⟩
      | some children =>
        cases recurse with
        | none =>
          rw [fetchIter_cons_cutoff env ctx sessionIds ref rest rf st children h0 henv]
          constructor
          · intro e he
            exact (ih _ _).1 e (addVariables_mem_of_mem _ _ e he)
          · intro e he
            rcases (ih _ _).2 e he with h | h
            · rcases addVariables_mem_cases _ _ e h with h2 | h2
              · exact Or.inl h2
              · simp at h2
                exact Or.inr ⟨ref, children, h0, henv, h2⟩
            · exact Or.inr h
        | some f =>
          have hm := hrec f rfl
            (childContextArgs ctx
              (childRefsToFetch ctx.force (rf ++ [ref]) sessionIds
                (toVariablesEntity ref children))
              (toVariablesEntity ref children))
            (addVariables st [toVariablesEntity ref children])
          rw [fetchIter_cons_rec env ctx sessionIds f ref rest rf st children h0 henv]
          split
          next crS crT hcr =>
            rw [hcr] at hm
            constructor
            · intro e he
              exact hm.1 e (addVariables_mem_of_mem _ _ e he)
            · intro e he
              rcases hm.2 e he with h | h
              · rcases addVariables_mem_cases _ _ e h with h2 | h2
                · exact Or.inl h2
                · simp at h2
                  exact Or.inr ⟨ref, children, h0, henv, h2⟩
              · exact Or.inr h
          next childVars crS crT hcr =>
            rw [hcr] at hm
            constructor
            · intro e he
              exact (ih _ _).1 e (hm.1 e (addVariables_mem_of_mem _ _ e he))
            · intro e he
              rcases (ih _ _).2 e he with h | h
              · rcases hm.2 e h with h2 | h2
                · rcases addVariables_mem_cases _ _ e h2 with h3 | h3
                  · exact Or.inl h3
                  · simp at h3
                    exact Or.inr ⟨ref, children, h0, henv, h3⟩
                · exact Or.inr h2
              · exact Or.inr h

theorem fetchVarsGo_state_closure (env : Env) :
    ∀ (gas : Nat) (ctx : FetchVariablesContextArg) (st : SessionState),
      (∀ e, e ∈ st.entities → e ∈ (fetchVarsGo env gas ctx st).state.entities) ∧
      (∀ e, e ∈ (fetchVarsGo env gas ctx st).state.entities →
        e ∈ st.entities ∨ ∃ r cs, r ≠ 0 ∧ env r = some cs ∧ e = toVariablesEntity r cs) := by
  intro gas
  induction gas with
  | zero =>
    intro ctx st
    rw [fetchVarsGo_zero]
    exact fetchIter_state_closure env ctx (stateIds st) none
      (fun f hf => Option.noConfusion hf) ctx.refsToFetch (selectReferences st) st
  | succ g ih =>
    intro ctx st
    rw [fetchVarsGo_succ]
    refine fetchIter_state_closure env ctx (stateIds st) _ ?_ ctx.refsToFetch
      (selectReferences st) st
    intro f hf c s
    have : f = fun c s => fetchVarsGo env g c s := by
      injection hf with h
      exact h.symm
    rw [this]
    exact ih c s

/-! ### Trace provenance: every request in the trace is for a non-zero handle,
and every publish is of an entity built from a successful non-zero request -/

theorem fetchIter_trace_closure (env : Env) (ctx : FetchVariablesContextArg)
    (sessionIds : List String)
    (recurse : Option (FetchVariablesContextArg → SessionState → FetchResult))
    (hrec : ∀ f, recurse = some f → ∀ c s ev, ev ∈ (f c s).trace →
      (∃ r, ev = Event.request r ∧ r ≠ 0) ∨
      (∃ r cs, r ≠ 0 ∧ env r = some cs ∧ ev = Event.publish (toVariablesEntity r cs))) :
    ∀ (refs refsFetched : List Int) (st : SessionState) (ev : Event),
      ev ∈ (fetchIter env ctx sessionIds recurse refs refsFetched st).trace →
      (∃ r, ev = Event.request r ∧ r ≠ 0) ∨
      (∃ r cs, r ≠ 0 ∧ env r = some cs ∧ ev = Event.publish (toVariablesEntity r cs)) := by
  intro refs
  induction refs with
  | nil =>
    intro rf st ev hev
    rw [fetchIter_nil] at hev
    simp at hev
  | cons ref rest ih =>
    intro rf st ev hev
    by_cases h0 : ref = 0
    · rw [fetchIter_cons_skip env ctx sessionIds recurse ref rest rf st h0] at hev
      exact ih rf st ev hev
    · cases henv : env ref with
      | none =>
        rw [fetchIter_cons_fail env ctx sessionIds recurse ref rest rf st h0 henv] at hev
        simp at hev
        exact Or.inl ⟨ref, hev, h0⟩
      | some children =>
        cases recurse with
        | none =>
          rw [fetchIter_cons_cutoff env ctx sessionIds ref rest rf st children h0 henv] at hev
          simp only [List.mem_cons] at hev
          rcases hev with h | h | h
          · exact Or.inl ⟨ref, h, h0⟩
          · exact Or.inr ⟨ref, children, h0, henv, h⟩
          · exact ih _ _ ev h
        | some f =>
          have hm := hrec f rfl
            (childContextArgs ctx
              (childRefsToFetch ctx.force (rf ++ [ref]) sessionIds
                (toVariablesEntity ref children))
              (toVariablesEntity ref children))
            (addVariables st [toVariablesEntity ref children])
          rw [fetchIter_cons_rec env ctx sessionIds f ref rest rf st children h0 henv] at hev
          revert hev
          split
          next crS crT hcr =>
            rw [hcr] at hm
            intro hev
            simp only [List.mem_cons] at hev
            rcases hev with h | h | h
            · exact Or.inl ⟨ref, h, h0⟩
            · exact Or.inr ⟨ref, children, h0, henv, h⟩
            · exact hm ev h
          next childVars crS crT hcr =>
            rw [hcr] at hm
            intro hev
            simp only [List.mem_cons, List.mem_append] at hev
            rcases hev with h | h | h | h
            · exact Or.inl ⟨ref, h, h0⟩
            · exact Or.inr ⟨ref, children, h0, henv, h⟩
            · exact hm ev h
            · exact ih _ _ ev h

theorem fetchVarsGo_trace_closure (env : Env) :
    ∀ (gas : Nat) (ctx : FetchVariablesContextArg) (st : SessionState) (ev : Event),
      ev ∈ (fetchVarsGo env gas ctx st).trace →
      (∃ r, ev = Event.request r ∧ r ≠ 0) ∨
      (∃ r cs, r ≠ 0 ∧ env r = some cs ∧ ev = Event.publish (toVariablesEntity r cs)) := by
  intro gas
  induction gas with
  | zero =>
    intro ctx st
    rw [fetchVarsGo_zero]
    exact fetchIter_trace_closure env ctx (stateIds st) none
      (fun f hf => Option.noConfusion hf) ctx.refsToFetch (selectReferences st) st
  | succ g ih =>
    intro ctx st
    rw [fetchVarsGo_succ]
    refine fetchIter_trace_closure env ctx (stateIds st) _ ?_ ctx.refsToFetch
      (selectReferences st) st
    intro f hf c s
    have : f = fun c s => fetchVarsGo env g c s := by
      injection hf with h
      exact h.symm
    rw [this]
    exact ih c s

/-! ### Total success: when every non-zero request succeeds, no call fails -/

theorem fetchIter_result_isSome (env : Env) (ctx : FetchVariablesContextArg)
    (sessionIds : List String)
    (recurse : Option (FetchVariablesContextArg → SessionState → FetchResult))
    (henv : ∀ r : Int, r ≠ 0 → (env r).isSome)
    (hrec : ∀ f, recurse = some f → ∀ c s, ((f c s).result).isSome) :
    ∀ (refs refsFetched : List Int) (st : SessionState),
      ((fetchIter env ctx sessionIds recurse refs refsFetched st).result).isSome := by
  intro refs
  induction refs with
  | nil =>
    intro rf st
    rw [fetchIter_nil]
    simp
  | cons ref rest ih =>
    intro rf st
    by_cases h0 : ref = 0
    · rw [fetchIter_cons_skip env ctx sessionIds recurse ref rest rf st h0]
      exact ih rf st
    · cases henvr : env ref with
      | none =>
        have := henv ref h0
        rw [henvr] at this
        simp at this
      | some children =>
        cases recurse with
        | none =>
          rw [fetchIter_cons_cutoff env ctx sessionIds ref rest rf st children h0 henvr]
          have := ih (rf ++ [ref]) (addVariables st [toVariablesEntity ref children])
          rcases Option.isSome_iff_exists.mp this with ⟨l, hl⟩
          simp [hl]
        | some f =>
          have hm := hrec f rfl
            (childContextArgs ctx
              (childRefsToFetch ctx.force (rf ++ [ref]) sessionIds
                (toVariablesEntity ref children))
              (toVariablesEntity ref children))
            (addVariables st [toVariablesEntity ref children])
          rw [fetchIter_cons_rec env ctx sessionIds f ref rest rf st children h0 henvr]
          split
          next crS crT hcr =>
            rw [hcr] at hm
            simp at hm
          next childVars crS crT hcr =>
            have := ih (rf ++ [ref]) crS
            rcases Option.isSome_iff_exists.mp this with ⟨l, hl⟩
            simp [hl]

theorem fetchVarsGo_result_isSome (env : Env)
    (henv : ∀ r : Int, r ≠ 0 → (env r).isSome) :
    ∀ (gas : Nat) (ctx : FetchVariablesContextArg) (st : SessionState),
      ((fetchVarsGo env gas ctx st).result).isSome := by
  intro gas
  induction gas with
  | zero =>
    intro ctx st
    rw [fetchVarsGo_zero]
    exact fetchIter_result_isSome env ctx (stateIds st) none henv
      (fun f hf => Option.noConfusion hf) ctx.refsToFetch (selectReferences st) st
  | succ g ih =>
    intro ctx st
    rw [fetchVarsGo_succ]
    refine fetchIter_result_isSome env ctx (stateIds st) _ henv ?_ ctx.refsToFetch
      (selectReferences st) st
    intro f hf c s
    have : f = fun c s => fetchVarsGo env g c s := by
      injection hf with h
      exact h.symm
    rw [this]
    exact ih c s

/-! ### Claim theorems -/

/-- C9: for every context whose `refsToFetch` is the empty list, the strategy
issues no protocol requests, dispatches nothing to the session store, and
returns the empty list — so the unconditional recursive call made with an
empty eligible-child set is a no-op equivalent to not recursing. -/
theorem empty_refsToFetch_is_noop (env : Env) (sid : String) (fr : StackFrameEntity)
    (v : Option VariablesEntity) (sc : Option ScopeEntity) (force : Bool)
    (st : SessionState) (maxDepth currentDepth : Nat) :
    defaultFetchVariablesStrategy env ⟨sid, fr, [], v, sc, force⟩ st maxDepth currentDepth =
      ⟨some [], st, []⟩ := by
  unfold defaultFetchVariablesStrategy
  cases maxDepth - currentDepth with
  | zero =>
    rw [fetchVarsGo_zero]
    exact fetchIter_nil env _ _ none _ st
  | succ g =>
    rw [fetchVarsGo_succ]
    exact fetchIter_nil env _ _ _ _ st

/-- C3: a child descriptor of a resolved node is selected for recursive
fetching iff all four filter conditions of lines 80-84 hold: strictly
positive handle, handle not in the visible `refsFetched`, not lazy unless
the request is forced, and value string not among the session's known ids. -/
theorem childEligible_iff (force : Bool) (refsFetched : List Int)
    (sessionIds : List String) (e : VariablesEntity) (v : DPVariable) :
    v ∈ e.variables'.filter (childEligible force refsFetched sessionIds) ↔
      v ∈ e.variables' ∧ 0 < v.variablesReference ∧
        v.variablesReference ∉ refsFetched ∧
        (force = true ∨ lazyTruthy v = false) ∧
        v.value ∉ sessionIds := by
  simp [List.mem_filter, childEligible, and_assoc]

/-- C8 (amended): the derived context built by lines 87-91 is identical to
the incoming one except that `refsToFetch` becomes the eligible child handles
and `variable` becomes the just-created node; `scope` is inherited unchanged
by the spread, so the "at most one of variable/scope is set" invariant holds
for the derived context exactly when the incoming context has no scope. -/
theorem childContextArgs_fields (ctx : FetchVariablesContextArg)
    (childRefs : List Int) (varEntity : VariablesEntity) :
    (childContextArgs ctx childRefs varEntity).sessionId = ctx.sessionId ∧
    (childContextArgs ctx childRefs varEntity).frame = ctx.frame ∧
    (childContextArgs ctx childRefs varEntity).force = ctx.force ∧
    (childContextArgs ctx childRefs varEntity).scope = ctx.scope ∧
    (childContextArgs ctx childRefs varEntity).refsToFetch = childRefs ∧
    (childContextArgs ctx childRefs varEntity).variable' = some varEntity ∧
    (((childContextArgs ctx childRefs varEntity).variable' = none ∨
        (childContextArgs ctx childRefs varEntity).scope = none) ↔
      ctx.scope = none) := by
  refine ⟨rfl, rfl, rfl, rfl, rfl, rfl, ?_⟩
  simp [childContextArgs]

/-- C8 (counterexample): for a context fetched on behalf of a scope (the
`scope` field set, `variable` unset), the derived context of lines 87-91 has
both `variable` and `scope` set — the spread copies `scope` while setting
`variable` — so the mutual-exclusion invariant is not preserved. -/
theorem childContextArgs_not_exclusive :
    ¬ ((childContextArgs
          ⟨"session1", ⟨"frame1"⟩, [7], none, some ⟨"Locals"⟩, false⟩
          [2] (toVariablesEntity 7 [])).variable' = none ∨
        (childContextArgs
          ⟨"session1", ⟨"frame1"⟩, [7], none, some ⟨"Locals"⟩, false⟩
          [2] (toVariablesEntity 7 [])).scope = none) := by
  decide

/-- C7: when the loop reaches a handle whose request succeeds, the publish of
the resolved node is the second event of the frame's remaining trace —
strictly before any protocol request for that node's children and strictly
before the next sibling handle is processed. -/
theorem publish_precedes_descent (env : Env) (ctx : FetchVariablesContextArg)
    (sessionIds : List String)
    (recurse : Option (FetchVariablesContextArg → SessionState → FetchResult))
    (ref : Int) (rest refsFetched : List Int) (st : SessionState)
    (cs : List DPVariable) (h0 : ref ≠ 0) (henv : env ref = some cs) :
    ∃ t, (fetchIter env ctx sessionIds recurse (ref :: rest) refsFetched st).trace =
      Event.request ref :: Event.publish (toVariablesEntity ref cs) :: t := by
  cases recurse with
  | none =>
    rw [fetchIter_cons_cutoff env ctx sessionIds ref rest refsFetched st cs h0 henv]
    exact ⟨_, rfl⟩
  | some f =>
    rw [fetchIter_cons_rec env ctx sessionIds f ref rest refsFetched st cs h0 henv]
    split
    next crS crT hcr => exact ⟨_, rfl⟩
    next childVars crS crT hcr => exact ⟨_, rfl⟩

/-- C6: a reference handle equal to 0 is never sent in a protocol request,
and no node is ever produced for it: every request event of any call is for a
non-zero handle and every published entity stems from a successful non-zero
request. -/
theorem zero_never_requested (env : Env) (ctx : FetchVariablesContextArg)
    (st : SessionState) (maxDepth currentDepth : Nat) :
    Event.request 0 ∉
        (defaultFetchVariablesStrategy env ctx st maxDepth currentDepth).trace ∧
      ∀ e, Event.publish e ∈
          (defaultFetchVariablesStrategy env ctx st maxDepth currentDepth).trace →
        e.variablesReference ≠ 0 := by
  constructor
  · intro hmem
    rcases fetchVarsGo_trace_closure env (maxDepth - currentDepth) ctx st _ hmem with
      ⟨r, hr, hr0⟩ | ⟨r, cs, hr0, hcs, hpub⟩
    · injection hr with h
      exact hr0 h.symm
    · exact Event.noConfusion hpub
  · intro e hmem
    rcases fetchVarsGo_trace_closure env (maxDepth - currentDepth) ctx st _ hmem with
      ⟨r, hr, hr0⟩ | ⟨r, cs, hr0, hcs, hpub⟩
    · exact Event.noConfusion hr
    · injection hpub with h
      rw [h]
      simpa [toVariablesEntity] using hr0

/-- C1 (counterexample): refsToFetch = [1, 2]; handle 1's node has child 3,
which is resolved inside sibling 1's recursive subtree; handle 2's node also
has child 3. The parent frame's `refsFetched` array is a frame-local
snapshot, so when 2's children are filtered the already-resolved handle 3 is
not visible and is re-requested: the trace of the single top-level call
contains two requests for handle 3. -/
theorem rerequest_within_one_call :
    ((defaultFetchVariablesStrategy
        (fun r =>
          if r = 1 then some [⟨"a", "va", 3, none⟩]
          else if r = 2 then some [⟨"b", "vb", 3, none⟩]
          else if r = 3 then some []
          else none)
        ⟨"session1", ⟨"frame1"⟩, [1, 2], none, none, false⟩
        ⟨[]⟩ 10 0).trace.countP
      (fun ev => decide (ev = Event.request 3))) = 2 := by
  decide

/-- C1 (amended): the `refsFetched` dedup applies only to the child-handle
filter, and within one call frame it sees exactly the frame-entry snapshot
extended by the handles this frame itself has resolved so far (the handle is
pushed right after resolution, before filtering): every selected child handle
is positive and avoids both the snapshot-so-far and the just-resolved
handle. Caller-supplied entries are requested without any `refsFetched`
check, and handles resolved inside an earlier sibling's recursive subtree are
not visible to the parent frame's later filtering decisions, so a handle can
be re-requested within one top-level call. -/
theorem childRefs_avoid_visible_refsFetched (force : Bool) (refsFetched : List Int)
    (ref : Int) (sessionIds : List String) (e : VariablesEntity) (c : Int)
    (hc : c ∈ childRefsToFetch force (refsFetched ++ [ref]) sessionIds e) :
    c ∉ refsFetched ∧ c ≠ ref ∧ 0 < c := by
  rcases List.mem_map.mp hc with ⟨v, hv, hvc⟩
  have h2 := (List.mem_filter.mp hv).2
  simp [childEligible] at h2
  rw [← hvc]
  exact ⟨h2.1.1.2.1, h2.1.1.2.2, h2.1.1.1⟩

/-- Closed form of a frame at the depth cutoff: with no recursion available,
the loop resolves each non-zero handle into exactly one node and records
exactly the request/publish pair for it. -/
theorem fetchIter_cutoff_closed_form (env : Env) (ctx : FetchVariablesContextArg)
    (sessionIds : List String) :
    ∀ (refs refsFetched : List Int) (st : SessionState),
      (∀ r, r ∈ refs → r ≠ 0 → (env r).isSome) →
      (fetchIter env ctx sessionIds none refs refsFetched st).result =
        some (refs.foldr (fun r acc =>
          (if r = 0 then [] else [toVariablesEntity r ((env r).getD [])]) ++ acc) []) ∧
      (fetchIter env ctx sessionIds none refs refsFetched st).trace =
        refs.foldr (fun r acc =>
          (if r = 0 then []
            else [Event.request r,
              Event.publish (toVariablesEntity r ((env r).getD []))]) ++ acc) [] := by
  intro refs
  induction refs with
  | nil =>
    intro rf st _
    rw [fetchIter_nil]
    simp
  | cons ref rest ih =>
    intro rf st hs
    have hrest : ∀ r, r ∈ rest → r ≠ 0 → (env r).isSome :=
      fun r hr => hs r (List.mem_cons_of_mem ref hr)
    by_cases h0 : ref = 0
    · rw [fetchIter_cons_skip env ctx sessionIds none ref rest rf st h0]
      rcases ih rf st hrest with ⟨hres, htr⟩
      simp [h0, hres, htr]
    · rcases Option.isSome_iff_exists.mp (hs ref (List.mem_cons_self ref rest) h0) with
        ⟨cs, hcs⟩
      rw [fetchIter_cons_cutoff env ctx sessionIds ref rest rf st cs h0 hcs]
      rcases ih (rf ++ [ref]) (addVariables st [toVariablesEntity ref cs]) hrest with
        ⟨hres, htr⟩
      simp [h0, hres, htr, hcs]

/-- C4: recursion depth is bounded by `maxDepth`: whenever
`currentDepth ≥ maxDepth` (in particular for `maxDepth = 0`), every non-zero
requested handle is still fetched, published, and returned as exactly one
node, and nothing is recursed into — the result is one entity per non-zero
entry and the trace is exactly the per-entry request/publish pairs. -/
theorem depth_cutoff_no_recursion (env : Env) (ctx : FetchVariablesContextArg)
    (st : SessionState) (maxDepth currentDepth : Nat)
    (hd : maxDepth ≤ currentDepth)
    (hs : ∀ r, r ∈ ctx.refsToFetch → r ≠ 0 → (env r).isSome) :
    (defaultFetchVariablesStrategy env ctx st maxDepth currentDepth).result =
      some (ctx.refsToFetch.foldr (fun r acc =>
        (if r = 0 then [] else [toVariablesEntity r ((env r).getD [])]) ++ acc) []) ∧
    (defaultFetchVariablesStrategy env ctx st maxDepth currentDepth).trace =
      ctx.refsToFetch.foldr (fun r acc =>
        (if r = 0 then []
          else [Event.request r,
            Event.publish (toVariablesEntity r ((env r).getD []))]) ++ acc) [] := by
  unfold defaultFetchVariablesStrategy
  have hg : maxDepth - currentDepth = 0 := Nat.sub_eq_zero_of_le hd
  rw [hg, fetchVarsGo_zero]
  exact fetchIter_cutoff_closed_form env ctx (stateIds st) ctx.refsToFetch
    (selectReferences st) st hs

/-- The failure scenario at the loop level: starting from an empty store with
refsToFetch = [1, 2], when the request for 1 succeeds and the request for 2
fails, the frame fails as a whole, node 1 (published before the failure)
survives in the final store, and no entity for handle 2 exists. -/
theorem fetchIter_fail_scenario (env : Env) (ctx : FetchVariablesContextArg)
    (sessionIds : List String)
    (recurse : Option (FetchVariablesContextArg → SessionState → FetchResult))
    (cs1 : List DPVariable)
    (h1 : env 1 = some cs1) (h2 : env 2 = none)
    (hrec : ∀ f, recurse = some f → ∀ c s,
      (∀ e, e ∈ s.entities → e ∈ (f c s).state.entities) ∧
      (∀ e, e ∈ (f c s).state.entities → e ∈ s.entities ∨
        ∃ r cs, r ≠ 0 ∧ env r = some cs ∧ e = toVariablesEntity r cs))
    (refsFetched : List Int) :
    (fetchIter env ctx sessionIds recurse [1, 2] refsFetched ⟨[]⟩).result = none ∧
    toVariablesEntity 1 cs1 ∈
      (fetchIter env ctx sessionIds recurse [1, 2] refsFetched ⟨[]⟩).state.entities ∧
    ∀ e, e ∈ (fetchIter env ctx sessionIds recurse [1, 2] refsFetched ⟨[]⟩).state.entities →
      e.variablesReference ≠ 2 := by
  have h10 : (1 : Int) ≠ 0 := by norm_num
  have h20 : (2 : Int) ≠ 0 := by norm_num
  have hmem1 : toVariablesEntity 1 cs1 ∈
      (addVariables ⟨[]⟩ [toVariablesEntity 1 cs1]).entities := by
    simp [addVariables, stateIds]
  cases recurse with
  | none =>
    rw [fetchIter_cons_cutoff env ctx sessionIds 1 [2] refsFetched ⟨[]⟩ cs1 h10 h1]
    rw [fetchIter_cons_fail env ctx sessionIds none 2 [] (refsFetched ++ [1])
      (addVariables ⟨[]⟩ [toVariablesEntity 1 cs1]) h20 h2]
    refine ⟨rfl, hmem1, ?_⟩
    intro e he
    simp [addVariables, stateIds] at he
    rw [he]
    simp [toVariablesEntity]
  | some f =>
    have hm := hrec f rfl
      (childContextArgs ctx
        (childRefsToFetch ctx.force (refsFetched ++ [1]) sessionIds
          (toVariablesEntity 1 cs1))
        (toVariablesEntity 1 cs1))
      (addVariables ⟨[]⟩ [toVariablesEntity 1 cs1])
    rw [fetchIter_cons_rec env ctx sessionIds f 1 [2] refsFetched ⟨[]⟩ cs1 h10 h1]
    split
    next crS crT hcr =>
      rw [hcr] at hm
      refine ⟨rfl, hm.1 _ hmem1, ?_⟩
      intro e he
      rcases hm.2 e he with h | ⟨r, cs, hr0, hrenv, hre⟩
      · simp [addVariables, stateIds] at h
        rw [h]
        simp [toVariablesEntity]
      · rw [hre]
        simp only [toVariablesEntity]
        intro hcontra
        rw [hcontra] at hrenv
        rw [h2] at hrenv
        exact Option.noConfusion hrenv
    next childVars crS crT hcr =>
      rw [hcr] at hm
      rw [fetchIter_cons_fail env ctx sessionIds (some f) 2 [] (refsFetched ++ [1])
        crS h20 h2]
      refine ⟨rfl, hm.1 _ hmem1, ?_⟩
      intro e he
      rcases hm.2 e he with h | ⟨r, cs, hr0, hrenv, hre⟩
      · simp [addVariables, stateIds] at h
        rw [h]
        simp [toVariablesEntity]
      · rw [hre]
        simp only [toVariablesEntity]
        intro hcontra
        rw [hcontra] at hrenv
        rw [h2] at hrenv
        exact Option.noConfusion hrenv

/-- C5: if the protocol request for a handle fails, the whole call fails with
no partial return value — here refsToFetch = [1, 2] with 1 succeeding
(including its entire recursive subtree, whatever it does) and 2 failing:
the overall result is the propagated failure, the node for 1 published
before the failure remains in the store, and no node for handle 2 exists. -/
theorem failure_aborts_preserving_published (env : Env) (sid : String)
    (fr : StackFrameEntity) (v : Option VariablesEntity) (sc : Option ScopeEntity)
    (force : Bool) (maxDepth currentDepth : Nat) (cs1 : List DPVariable)
    (h1 : env 1 = some cs1) (h2 : env 2 = none) :
    (defaultFetchVariablesStrategy env ⟨sid, fr, [1, 2], v, sc, force⟩ ⟨[]⟩
        maxDepth currentDepth).result = none ∧
    toVariablesEntity 1 cs1 ∈
      (defaultFetchVariablesStrategy env ⟨sid, fr, [1, 2], v, sc, force⟩ ⟨[]⟩
        maxDepth currentDepth).state.entities ∧
    ∀ e, e ∈ (defaultFetchVariablesStrategy env ⟨sid, fr, [1, 2], v, sc, force⟩ ⟨[]⟩
        maxDepth currentDepth).state.entities →
      e.variablesReference ≠ 2 := by
  unfold defaultFetchVariablesStrategy
  cases maxDepth - currentDepth with
  | zero =>
    rw [fetchVarsGo_zero]
    exact fetchIter_fail_scenario env _ _ none cs1 h1 h2
      (fun f hf => Option.noConfusion hf) _
  | succ g =>
    rw [fetchVarsGo_succ]
    refine fetchIter_fail_scenario env _ _ _ cs1 h1 h2 ?_ _
    intro f hf c s
    have : f = fun c s => fetchVarsGo env g c s := by
      injection hf with h
      exact h.symm
    rw [this]
    exact fetchVarsGo_state_closure env g c s

/-- C2: depth-first, left-to-right order. When the strategy succeeds on a
context whose first handle `r` is non-zero and resolves to children `cs`, the
returned list is exactly the node for `r`, immediately followed by the entire
result of the recursive call on `r`'s eligible children (its fully-recursed
descendants), followed by the output for the remaining sibling handles — so
each node precedes its subtree, which precedes the next sibling's subtree. -/
theorem dfs_order (env : Env) (ctx : FetchVariablesContextArg) (st : SessionState)
    (maxDepth currentDepth : Nat) (r : Int) (rest : List Int) (cs : List DPVariable)
    (L : List VariablesEntity)
    (hctx : ctx.refsToFetch = r :: rest) (hr : r ≠ 0) (henv : env r = some cs)
    (hd : currentDepth < maxDepth)
    (hL : (defaultFetchVariablesStrategy env ctx st maxDepth currentDepth).result =
      some L) :
    ∃ g cvs ls,
      maxDepth - currentDepth = g + 1 ∧
      (fetchVarsGo env g
          (childContextArgs ctx
            (childRefsToFetch ctx.force (selectReferences st ++ [r]) (stateIds st)
              (toVariablesEntity r cs))
            (toVariablesEntity r cs))
          (addVariables st [toVariablesEntity r cs])).result = some cvs ∧
      (fetchIter env ctx (stateIds st) (some (fun c s => fetchVarsGo env g c s)) rest
          (selectReferences st ++ [r])
          (fetchVarsGo env g
            (childContextArgs ctx
              (childRefsToFetch ctx.force (selectReferences st ++ [r]) (stateIds st)
                (toVariablesEntity r cs))
              (toVariablesEntity r cs))
            (addVariables st [toVariablesEntity r cs])).state).result = some ls ∧
      L = toVariablesEntity r cs :: (cvs ++ ls) := by
  obtain ⟨g, hg⟩ : ∃ g, maxDepth - currentDepth = g + 1 := by
    refine ⟨maxDepth - currentDepth - 1, ?_⟩
    omega
  unfold defaultFetchVariablesStrategy at hL
  rw [hg, fetchVarsGo_succ, hctx] at hL
  rw [fetchIter_cons_rec env ctx (stateIds st) (fun c s => fetchVarsGo env g c s)
    r rest (selectReferences st) st cs hr henv] at hL
  refine ⟨g, ?_⟩
  split at hL
  next crS crT hcr =>
    simp at hL
  next childVars crS crT hcr =>
    have hcr2 : fetchVarsGo env g
        (childContextArgs ctx
          (childRefsToFetch ctx.force (selectReferences st ++ [r]) (stateIds st)
            (toVariablesEntity r cs))
          (toVariablesEntity r cs))
        (addVariables st [toVariablesEntity r cs]) = ⟨some childVars, crS, crT⟩ := hcr
    simp only at hL
    rcases Option.map_eq_some'.mp hL with ⟨ls, hls, hLeq⟩
    refine ⟨childVars, ls, hg, ?_, ?_, ?_⟩
    · rw [hcr2]
    · rw [hcr2]
      exact hls
    · rw [← hLeq]

/-- Inside one frame, every non-zero handle of the worklist is requested, and
(when all non-zero requests succeed) resolved into a node that is published
and part of the returned list. -/
theorem fetchIter_nonzero_requested (env : Env) (ctx : FetchVariablesContextArg)
    (sessionIds : List String)
    (recurse : Option (FetchVariablesContextArg → SessionState → FetchResult))
    (henv : ∀ r : Int, r ≠ 0 → (env r).isSome)
    (hrec : ∀ f, recurse = some f → ∀ c s, ((f c s).result).isSome) :
    ∀ (refs refsFetched : List Int) (st : SessionState) (h : Int),
      h ∈ refs → h ≠ 0 →
      Event.request h ∈
        (fetchIter env ctx sessionIds recurse refs refsFetched st).trace ∧
      ∃ cs l, env h = some cs ∧
        Event.publish (toVariablesEntity h cs) ∈
          (fetchIter env ctx sessionIds recurse refs refsFetched st).trace ∧
        (fetchIter env ctx sessionIds recurse refs refsFetched st).result = some l ∧
        toVariablesEntity h cs ∈ l := by
  intro refs
  induction refs with
  | nil =>
    intro rf st h hmem _
    exact absurd hmem (List.not_mem_nil h)
  | cons ref rest ih =>
    intro rf st h hmem h0
    by_cases hre : ref = 0
    · rw [fetchIter_cons_skip env ctx sessionIds recurse ref rest rf st hre]
      have hmem2 : h ∈ rest := by
        rcases List.mem_cons.mp hmem with heq | hr
        · exact absurd (heq.trans hre) h0
        · exact hr
      exact ih rf st h hmem2 h0
    · rcases Option.isSome_iff_exists.mp (henv ref hre) with ⟨cs, hcs⟩
      cases recurse with
      | none =>
        rw [fetchIter_cons_cutoff env ctx sessionIds ref rest rf st cs hre hcs]
        have hsome := fetchIter_result_isSome env ctx sessionIds none henv
          (fun f hf => Option.noConfusion hf) rest (rf ++ [ref])
          (addVariables st [toVariablesEntity ref cs])
        rcases Option.isSome_iff_exists.mp hsome with ⟨l2, hl2⟩
        rcases List.mem_cons.mp hmem with heq | hmemr
        · subst heq
          refine ⟨by simp, cs, toVariablesEntity h cs :: l2, hcs, by simp, ?_, ?_⟩
          · simp [hl2]
          · simp
        · rcases ih (rf ++ [ref]) (addVariables st [toVariablesEntity ref cs])
            h hmemr h0 with ⟨hreq, cs2, l3, hcs2, hpub, hres, hmem3⟩
          have hl23 : l3 = l2 := by
            rw [hres] at hl2
            exact Option.some_inj.mp hl2
          refine ⟨by simp [hreq], cs2, toVariablesEntity ref cs :: l2, hcs2,
            by simp [hpub], ?_, ?_⟩
          · simp [hl2]
          · rw [← hl23]
            simp [hmem3]
      | some f =>
        have hcrsome := hrec f rfl
          (childContextArgs ctx
            (childRefsToFetch ctx.force (rf ++ [ref]) sessionIds
              (toVariablesEntity ref cs))
            (toVariablesEntity ref cs))
          (addVariables st [toVariablesEntity ref cs])
        rw [fetchIter_cons_rec env ctx sessionIds f ref rest rf st cs hre hcs]
        split
        next crS crT hcr =>
          rw [hcr] at hcrsome
          simp at hcrsome
        next childVars crS crT hcr =>
          have hsome := fetchIter_result_isSome env ctx sessionIds (some f) henv hrec
            rest (rf ++ [ref]) crS
          rcases Option.isSome_iff_exists.mp hsome with ⟨l2, hl2⟩
          rcases List.mem_cons.mp hmem with heq | hmemr
          · subst heq
            refine ⟨by simp, cs, toVariablesEntity h cs :: (childVars ++ l2), hcs,
              by simp, ?_, ?_⟩
            · simp [hl2]
            · simp
          · rcases ih (rf ++ [ref]) crS h hmemr h0 with
              ⟨hreq, cs2, l3, hcs2, hpub, hres, hmem3⟩
            have hl23 : l3 = l2 := by
              rw [hres] at hl2
              exact Option.some_inj.mp hl2
            refine ⟨by simp [hreq], cs2, toVariablesEntity ref cs :: (childVars ++ l2),
              hcs2, by simp [hpub], ?_, ?_⟩
            · simp [hl2]
            · rw [← hl23]
              simp [hmem3]

/-- C10: only the exact value 0 is skipped: every caller-supplied handle
`h ≠ 0` — including negative handles — is sent in a protocol request, and
(when responses succeed) a node for it is published and appears in the
returned list; the strictly-greater-than-0 guard applies only to
fetcher-computed child handles. -/
theorem nonzero_handles_always_requested (env : Env) (ctx : FetchVariablesContextArg)
    (st : SessionState) (maxDepth currentDepth : Nat) (h : Int)
    (hmem : h ∈ ctx.refsToFetch) (h0 : h ≠ 0)
    (henv : ∀ r : Int, r ≠ 0 → (env r).isSome) :
    Event.request h ∈
      (defaultFetchVariablesStrategy env ctx st maxDepth currentDepth).trace ∧
    ∃ cs l, env h = some cs ∧
      Event.publish (toVariablesEntity h cs) ∈
        (defaultFetchVariablesStrategy env ctx st maxDepth currentDepth).trace ∧
      (defaultFetchVariablesStrategy env ctx st maxDepth currentDepth).result = some l ∧
      toVariablesEntity h cs ∈ l := by
  unfold defaultFetchVariablesStrategy
  cases maxDepth - currentDepth with
  | zero =>
    rw [fetchVarsGo_zero]
    exact fetchIter_nonzero_requested env ctx (stateIds st) none henv
      (fun f hf => Option.noConfusion hf) ctx.refsToFetch (selectReferences st) st
      h hmem h0
  | succ g =>
    rw [fetchVarsGo_succ]
    refine fetchIter_nonzero_requested env ctx (stateIds st) _ henv ?_
      ctx.refsToFetch (selectReferences st) st h hmem h0
    intro f hf c s
    have : f = fun c s => fetchVarsGo env g c s := by
      injection hf with hh
      exact hh.symm
    rw [this]
    exact fetchVarsGo_result_isSome env henv g c s

/-! ### Witnesses -/

/-- Witness for C1 (amended): child handle 9 of node 7 is selected and indeed
avoids the visible refsFetched [5] ++ [7]. -/
theorem childRefs_avoid_visible_refsFetched_witness :
    (9 : Int) ∈ childRefsToFetch false ([5] ++ [7]) []
        ⟨"7", 7, [⟨"x", "vx", 9, none⟩]⟩ ∧
      ((9 : Int) ∉ [(5 : Int)] ∧ (9 : Int) ≠ 7 ∧ (0 : Int) < 9) :=
  ⟨by decide,
    childRefs_avoid_visible_refsFetched false [5] 7 [] ⟨"7", 7, [⟨"x", "vx", 9, none⟩]⟩
      9 (by decide)⟩

/-- Witness for C2: refsToFetch = [10, 20], node 10 has no eligible children
while node 20 recursively yields node 30; the successful result
[node 10, node 20, node 30] decomposes as node 10, its (empty) descendant
list, then sibling 20's subtree. -/
theorem dfs_order_witness :
    ∃ g cvs ls,
      10 - 0 = g + 1 ∧
      (fetchVarsGo
          (fun r =>
            if r = 10 then some []
            else if r = 20 then some [⟨"c", "vc", 30, none⟩]
            else if r = 30 then some []
            else none) g
          (childContextArgs ⟨"s", ⟨"f"⟩, [10, 20], none, none, false⟩
            (childRefsToFetch false (selectReferences ⟨[]⟩ ++ [10]) (stateIds ⟨[]⟩)
              (toVariablesEntity 10 []))
            (toVariablesEntity 10 []))
          (addVariables ⟨[]⟩ [toVariablesEntity 10 []])).result = some cvs ∧
      (fetchIter
          (fun r =>
            if r = 10 then some []
            else if r = 20 then some [⟨"c", "vc", 30, none⟩]
            else if r = 30 then some []
            else none)
          ⟨"s", ⟨"f"⟩, [10, 20], none, none, false⟩ (stateIds ⟨[]⟩)
          (some (fun c s => fetchVarsGo
            (fun r =>
              if r = 10 then some []
              else if r = 20 then some [⟨"c", "vc", 30, none⟩]
              else if r = 30 then some []
              else none) g c s)) [20]
          (selectReferences ⟨[]⟩ ++ [10])
          (fetchVarsGo
            (fun r =>
              if r = 10 then some []
              else if r = 20 then some [⟨"c", "vc", 30, none⟩]
              else if r = 30 then some []
              else none) g
            (childContextArgs ⟨"s", ⟨"f"⟩, [10, 20], none, none, false⟩
              (childRefsToFetch false (selectReferences ⟨[]⟩ ++ [10]) (stateIds ⟨[]⟩)
                (toVariablesEntity 10 []))
              (toVariablesEntity 10 []))
            (addVariables ⟨[]⟩ [toVariablesEntity 10 []])).state).result = some ls ∧
      [toVariablesEntity 10 [], toVariablesEntity 20 [⟨"c", "vc", 30, none⟩],
          toVariablesEntity 30 []] =
        toVariablesEntity 10 [] :: (cvs ++ ls) :=
  dfs_order
    (fun r =>
      if r = 10 then some []
      else if r = 20 then some [⟨"c", "vc", 30, none⟩]
      else if r = 30 then some []
      else none)
    ⟨"s", ⟨"f"⟩, [10, 20], none, none, false⟩ ⟨[]⟩ 10 0 10 [20] []
    [toVariablesEntity 10 [], toVariablesEntity 20 [⟨"c", "vc", 30, none⟩],
      toVariablesEntity 30 []]
    rfl (by decide) (by decide) (by decide) (by decide)

/-- Witness for C3: a non-lazy child with fresh positive handle 3 and fresh
value is selected; the four conditions hold. -/
theorem childEligible_iff_witness :
    (⟨"a", "va", 3, none⟩ : DPVariable) ∈
      (⟨"1", 1, [⟨"a", "va", 3, none⟩]⟩ : VariablesEntity).variables'.filter
        (childEligible false [1] ["1"]) ↔
      (⟨"a", "va", 3, none⟩ : DPVariable) ∈
          (⟨"1", 1, [⟨"a", "va", 3, none⟩]⟩ : VariablesEntity).variables' ∧
        (0 : Int) < 3 ∧ (3 : Int) ∉ [(1 : Int)] ∧
        (false = true ∨ lazyTruthy ⟨"a", "va", 3, none⟩ = false) ∧
        "va" ∉ ["1"] :=
  childEligible_iff false [1] ["1"] ⟨"1", 1, [⟨"a", "va", 3, none⟩]⟩ ⟨"a", "va", 3, none⟩

/-- Witness for C4: maxDepth = 0 — handle 5 is fetched and published exactly
once, with no recursion despite an expandable child. -/
theorem depth_cutoff_no_recursion_witness :
    (defaultFetchVariablesStrategy (fun _ => some [⟨"x", "vx", 6, none⟩])
        ⟨"s", ⟨"f"⟩, [5], none, none, false⟩ ⟨[]⟩ 0 0).result =
      some [toVariablesEntity 5 [⟨"x", "vx", 6, none⟩]] ∧
    (defaultFetchVariablesStrategy (fun _ => some [⟨"x", "vx", 6, none⟩])
        ⟨"s", ⟨"f"⟩, [5], none, none, false⟩ ⟨[]⟩ 0 0).trace =
      [Event.request 5, Event.publish (toVariablesEntity 5 [⟨"x", "vx", 6, none⟩])] :=
  depth_cutoff_no_recursion (fun _ => some [⟨"x", "vx", 6, none⟩])
    ⟨"s", ⟨"f"⟩, [5], none, none, false⟩ ⟨[]⟩ 0 0 (Nat.le_refl 0)
    (fun _ _ _ => rfl)

/-- Witness for C5: request 1 succeeds with no children, request 2 fails; the
call fails, node 1 survives, no node for 2 exists. -/
theorem failure_aborts_preserving_published_witness :
    (defaultFetchVariablesStrategy (fun r => if r = 1 then some [] else none)
        ⟨"s", ⟨"f"⟩, [1, 2], none, none, false⟩ ⟨[]⟩ 10 0).result = none ∧
    toVariablesEntity 1 [] ∈
      (defaultFetchVariablesStrategy (fun r => if r = 1 then some [] else none)
        ⟨"s", ⟨"f"⟩, [1, 2], none, none, false⟩ ⟨[]⟩ 10 0).state.entities ∧
    ∀ e, e ∈ (defaultFetchVariablesStrategy (fun r => if r = 1 then some [] else none)
        ⟨"s", ⟨"f"⟩, [1, 2], none, none, false⟩ ⟨[]⟩ 10 0).state.entities →
      e.variablesReference ≠ 2 :=
  failure_aborts_preserving_published (fun r => if r = 1 then some [] else none)
    "s" ⟨"f"⟩ none none false 10 0 [] (by decide) (by decide)

/-- Witness for C6: a run over [0, 1] never requests handle 0 and publishes
no node with handle 0. -/
theorem zero_never_requested_witness :
    Event.request 0 ∉
      (defaultFetchVariablesStrategy (fun _ => some [])
        ⟨"s", ⟨"f"⟩, [0, 1], none, none, false⟩ ⟨[]⟩ 10 0).trace ∧
    ∀ e, Event.publish e ∈
        (defaultFetchVariablesStrategy (fun _ => some [])
          ⟨"s", ⟨"f"⟩, [0, 1], none, none, false⟩ ⟨[]⟩ 10 0).trace →
      e.variablesReference ≠ 0 :=
  zero_never_requested (fun _ => some []) ⟨"s", ⟨"f"⟩, [0, 1], none, none, false⟩
    ⟨[]⟩ 10 0

/-- Witness for C7: handle 4 resolves successfully, and the frame's trace
starts with its request immediately followed by its publish. -/
theorem publish_precedes_descent_witness :
    ∃ t, (fetchIter (fun _ => some []) ⟨"s", ⟨"f"⟩, [4], none, none, false⟩ [] none
        [4] [] ⟨[]⟩).trace =
      Event.request 4 :: Event.publish (toVariablesEntity 4 []) :: t :=
  publish_precedes_descent (fun _ => some []) ⟨"s", ⟨"f"⟩, [4], none, none, false⟩
    [] none 4 [] [] ⟨[]⟩ [] (by decide) rfl

/-- Witness for C10: the negative handle -1 is requested, resolved, published
and returned. -/
theorem nonzero_handles_always_requested_witness :
    Event.request (-1) ∈
      (defaultFetchVariablesStrategy (fun _ => some [])
        ⟨"s", ⟨"f"⟩, [-1], none, none, false⟩ ⟨[]⟩ 10 0).trace ∧
    ∃ cs l, some ([] : List DPVariable) = some cs ∧
      Event.publish (toVariablesEntity (-1) cs) ∈
        (defaultFetchVariablesStrategy (fun _ => some [])
          ⟨"s", ⟨"f"⟩, [-1], none, none, false⟩ ⟨[]⟩ 10 0).trace ∧
      (defaultFetchVariablesStrategy (fun _ => some [])
        ⟨"s", ⟨"f"⟩, [-1], none, none, false⟩ ⟨[]⟩ 10 0).result = some l ∧
      toVariablesEntity (-1) cs ∈ l :=
  nonzero_handles_always_requested (fun _ => some [])
    ⟨"s", ⟨"f"⟩, [-1], none, none, false⟩ ⟨[]⟩ 10 0 (-1) (by decide) (by decide)
    (fun _ _ => rfl)

end PedagogReactVite
